import Mathlib

/-!
Shallow embedding of the riscemu CPU execution engine (src/riscemu/CPU.py):
the fetch/advance/dispatch loop, the per-mnemonic instruction handlers, and
the recoverable-fault boundary.  The collaborating modules that are not part
of the given source (helpers, Exceptions, Registers, MMU, Syscall, debug) are
modelled from the specification; each such definition carries a doc comment
starting with "Modelled from the spec:".  Python integers are embedded as
Lean `Int` (Python `%` and `//`/`>>` are floor operations, matching `Int.emod`
and `Int.ediv`); Python's `& 0b11111` on a twos-complement integer is embedded
as `Int.land · 31`, and the lemma `int_land_31` relates it to `% 32`.
-/

/-- Operand of a decoded instruction: a register reference (a name), an
immediate constant, or the combined "imm(rs1)" memory-operand pair. -/
inductive Operand where
  | reg (r : String)
  | imm (v : Int)
  | adr (imm : Int) (base : String)
deriving DecidableEq

/-- Decoded instruction: a mnemonic and an ordered operand list
(`LoadedInstruction` in the source). -/
structure LoadedInstruction where
  name : String
  args : List Operand
deriving DecidableEq

/-- Error taxonomy.  The first four constructors are the catchable
`RiscemuBaseException` family modelled from the spec (memory fault,
malformed-instruction/parse fault, unimplemented instruction, syscall fault);
`runtimeError` and `typeError` are Python host-level errors (`RuntimeError`,
`TypeError`) which are not members of that family. -/
inductive EmuErr where
  | memoryFault (addr : Int)
  | malformed
  | insNotImplemented (name : String)
  | syscallFault
  | runtimeError (msg : String)
  | typeError
deriving DecidableEq

/-- Membership in the catchable `RiscemuBaseException` family: the dispatch
loop's `except RiscemuBaseException` catches exactly these. -/
def isRiscemuBaseException : EmuErr → Bool
  | .memoryFault _ => true
  | .malformed => true
  | .insNotImplemented _ => true
  | .syscallFault => true
  | .runtimeError _ => false
  | .typeError => false

/-- Accessor `ins.get_reg(i)`: the i-th operand, which must be a register
name.  Modelled from the spec: a non-register operand string used as a
register fails inside the catchable fault family. -/
def LoadedInstruction.get_reg (ins : LoadedInstruction) (i : Nat) : Except EmuErr String :=
  match ins.args[i]? with
  | some (.reg r) => .ok r
  | _ => .error .malformed

/-- Accessor `ins.get_imm(i)`: the i-th operand parsed as an immediate.
Modelled from the spec: a non-numeric operand raises a parse fault of the
catchable family. -/
def LoadedInstruction.get_imm (ins : LoadedInstruction) (i : Nat) : Except EmuErr Int :=
  match ins.args[i]? with
  | some (.imm v) => .ok v
  | _ => .error .malformed

/-- Accessor `ins.get_imm_reg(i)`: the i-th operand split as the combined
"imm(rs1)" pair, returned as (imm, rs1) as in the source. -/
def LoadedInstruction.get_imm_reg (ins : LoadedInstruction) (i : Nat) :
    Except EmuErr (Int × String) :=
  match ins.args[i]? with
  | some (.adr v b) => .ok (v, b)
  | _ => .error .malformed

/-- Modelled from the spec: `ASSERT_LEN` validates the decoded instruction's
fixed operand arity; a mismatch raises a malformed-instruction fault of the
catchable family (spec section 7). -/
def ASSERT_LEN (args : List Operand) (n : Nat) : Except EmuErr Unit :=
  if args.length = n then .ok () else .error .malformed

/-- Modelled from the spec: `INS_NOT_IMPLEMENTED` raises a distinct
"unimplemented instruction" fault of the catchable family. -/
def INS_NOT_IMPLEMENTED {α : Type} (ins : LoadedInstruction) : Except EmuErr α :=
  .error (.insNotImplemented ins.name)

/-- Modelled from the spec: `to_unsigned` coerces a word-sized signed
twos-complement integer to its unsigned interpretation (4 bytes). -/
def to_unsigned (n : Int) : Int :=
  if n < 0 then n + 4294967296 else n

/-- Modelled from the spec: `to_signed` reinterprets an unsigned word value
back as signed twos-complement (4 bytes); on the nonnegative arguments
produced by the shift handlers it subtracts `2^32` exactly when bit 31 or
higher is set. -/
def to_signed (n : Int) : Int :=
  if 2147483648 ≤ n then n - 4294967296 else n

/-- Dynamically typed Python value, needed because `__instruction_bltu` and
`__instruction_bgeu` pass the *register name* returned by `get_reg` (a
string) to the numeric coercion `to_unsigned`. -/
inductive PyVal where
  | int (n : Int)
  | str (s : String)
deriving DecidableEq

/-- Modelled from the spec and Python semantics: `to_unsigned` begins with
the comparison `num < 0`; applied to a string (a register name) the
comparison `str < int` raises a host-level `TypeError`, which is not a
member of the catchable fault family. -/
def to_unsigned_py : PyVal → Except EmuErr PyVal
  | .int n => .ok (.int (to_unsigned n))
  | .str _ => .error .typeError

/-- Modelled from the spec: the register file (`Registers.get`) looked up
with a non-name key fails outside the normal path; reads by name return the
stored word. -/
def regs_get_py (regs : String → Int) : PyVal → Except EmuErr Int
  | .str s => .ok (regs s)
  | .int _ => .error .typeError

/-- Modelled from the spec: register storage is word-sized signed
twos-complement, so a stored value is reduced to the representative in
[-2^31, 2^31). -/
def toSigned32 (v : Int) : Int :=
  if 2147483648 ≤ v % 4294967296 then v % 4294967296 - 4294967296 else v % 4294967296

/-- Modelled from the spec: `Registers.set` stores the word-sized signed
twos-complement representative of the value under the given name. -/
def regs_set (regs : String → Int) (name : String) (v : Int) : String → Int :=
  fun r => if r = name then toSigned32 v else regs r

/-- Little-endian value of a byte list. -/
def bytes_to_nat : List Nat → Nat
  | [] => 0
  | b :: rest => b + 256 * bytes_to_nat rest

/-- Modelled from the spec: `int_from_bytes` reads a little-endian value;
`lb`/`lh` sign-extend the loaded value to full width, `lbu`/`lhu`
zero-extend (the `unsigned` flag). -/
def int_from_bytes (bs : List Nat) (unsigned : Bool) : Int :=
  let u : Int := (bytes_to_nat bs : Int)
  if unsigned then u
  else if 2 ^ (8 * bs.length - 1) ≤ u then u - 2 ^ (8 * bs.length) else u

/-- Little-endian byte list of a natural number, truncated to the width. -/
def nat_to_bytes : Nat → Nat → List Nat
  | 0, _ => []
  | n + 1, v => v % 256 :: nat_to_bytes n (v / 256)

/-- Modelled from the spec: stores truncate the source register's value to
the instruction's byte width (twos complement, little endian). -/
def int_to_bytes (v : Int) (n : Nat) : List Nat :=
  nat_to_bytes n (v % ((2 : Int) ^ (8 * n))).toNat

/-- Python left shift `x << k` for a nonnegative shift amount. -/
def pyShiftL (x : Int) (k : Int) : Int := x * 2 ^ k.toNat

/-- Python right shift `x >> k`: an arithmetic (floor) shift, which for a
nonnegative shift amount is floor division by `2^k` (`Int.ediv`, the `/` of
`Int`, is floor division for a positive divisor, like Python's). -/
def pyShiftR (x : Int) (k : Int) : Int := x / 2 ^ k.toNat

/-- Modelled from the spec: the memory collaborator.  A byte-addressable
space (`mem`, `none` meaning unmapped) together with the instruction memory
(`prog`) that `read_ins` fetches from. -/
structure MMU where
  prog : Int → Option LoadedInstruction
  mem : Int → Option Nat

/-- Read `n` bytes starting at an address, failing if any byte is unmapped. -/
def mem_read_bytes (mem : Int → Option Nat) : Int → Nat → Option (List Nat)
  | _, 0 => some []
  | a, n + 1 => do
    let b ← mem a
    let rest ← mem_read_bytes mem (a + 1) n
    pure (b :: rest)

/-- Write a byte list starting at an address, failing if any byte is
unmapped. -/
def mem_write_bytes : (Int → Option Nat) → Int → List Nat → Option (Int → Option Nat)
  | mem, _, [] => some mem
  | mem, a, b :: rest =>
    match mem a with
    | none => none
    | some _ => mem_write_bytes (fun x => if x = a then some b else mem x) (a + 1) rest

/-- Modelled from the spec: `mmu.read(addr, n)` returns `n` bytes or raises
a memory fault (bad address) of the catchable family. -/
def MMU.read (m : MMU) (addr : Int) (n : Nat) : Except EmuErr (List Nat) :=
  match mem_read_bytes m.mem addr n with
  | some bs => .ok bs
  | none => .error (.memoryFault addr)

/-- Modelled from the spec: `mmu.write(addr, n, bytes)` writes the bytes or
raises a memory fault of the catchable family. -/
def MMU.write (m : MMU) (addr : Int) (_n : Nat) (bs : List Nat) : Except EmuErr MMU :=
  match mem_write_bytes m.mem addr bs with
  | some mem2 => .ok { m with mem := mem2 }
  | none => .error (.memoryFault addr)

/-- Modelled from the spec: `mmu.read_ins(pc)` fetches the decoded
instruction at an address or raises a memory fault of the catchable
family. -/
def MMU.read_ins (m : MMU) (addr : Int) : Except EmuErr LoadedInstruction :=
  match m.prog addr with
  | some i => .ok i
  | none => .error (.memoryFault addr)

/-- Configuration captured at construction (`RunConfig`). -/
structure RunConfig where
  include_scall_symbols : Bool
  debug_on_exception : Bool
deriving DecidableEq

/-- Engine state: pc, cycle counter, exit flag and code, configuration, the
register file and the memory (the fields the `CPU` object owns). -/
structure CPU where
  pc : Int
  cycle : Nat
  exit : Bool
  exit_code : Int
  conf : RunConfig
  regs : String → Int
  mmu : MMU

/-- Shared address resolution `__parse_mem_ins`: both the `rd, rs1, imm` and
the `rd, imm(rs1)` operand forms resolve to a (register, base + imm) pair;
the two-operand form must use the combined "imm(rs1)" syntax
(`ASSERT_IN("(", ins.args[1])`). -/
def parse_mem_ins (c : CPU) (ins : LoadedInstruction) : Except EmuErr (String × Int) := do
  if ins.args.length = 3 then
    let rs1 ← ins.get_reg 1
    let imm ← ins.get_imm 2
    let rd ← ins.get_reg 0
    pure (rd, c.regs rs1 + imm)
  else
    ASSERT_LEN ins.args 2
    let (imm, rs1) ← ins.get_imm_reg 1
    let rd ← ins.get_reg 0
    pure (rd, c.regs rs1 + imm)

/-- Handler `__instruction_lb`. -/
def instruction_lb (c : CPU) (ins : LoadedInstruction) : Except EmuErr CPU := do
  let (rd, addr) ← parse_mem_ins c ins
  let bs ← c.mmu.read addr 1
  pure { c with regs := regs_set c.regs rd (int_from_bytes bs false) }

/-- Handler `__instruction_lh`. -/
def instruction_lh (c : CPU) (ins : LoadedInstruction) : Except EmuErr CPU := do
  let (rd, addr) ← parse_mem_ins c ins
  let bs ← c.mmu.read addr 2
  pure { c with regs := regs_set c.regs rd (int_from_bytes bs false) }

/-- Handler `__instruction_lw`. -/
def instruction_lw (c : CPU) (ins : LoadedInstruction) : Except EmuErr CPU := do
  let (rd, addr) ← parse_mem_ins c ins
  let bs ← c.mmu.read addr 4
  pure { c with regs := regs_set c.regs rd (int_from_bytes bs false) }

/-- Handler `__instruction_lbu`. -/
def instruction_lbu (c : CPU) (ins : LoadedInstruction) : Except EmuErr CPU := do
  let (rd, addr) ← parse_mem_ins c ins
  let bs ← c.mmu.read addr 1
  pure { c with regs := regs_set c.regs rd (int_from_bytes bs true) }

/-- Handler `__instruction_lhu`. -/
def instruction_lhu (c : CPU) (ins : LoadedInstruction) : Except EmuErr CPU := do
  let (rd, addr) ← parse_mem_ins c ins
  let bs ← c.mmu.read addr 2
  pure { c with regs := regs_set c.regs rd (int_from_bytes bs true) }

/-- Handler `__instruction_sb`. -/
def instruction_sb (c : CPU) (ins : LoadedInstruction) : Except EmuErr CPU := do
  let (rd, addr) ← parse_mem_ins c ins
  let m2 ← c.mmu.write addr 1 (int_to_bytes (c.regs rd) 1)
  pure { c with mmu := m2 }

/-- Handler `__instruction_sh`. -/
def instruction_sh (c : CPU) (ins : LoadedInstruction) : Except EmuErr CPU := do
  let (rd, addr) ← parse_mem_ins c ins
  let m2 ← c.mmu.write addr 2 (int_to_bytes (c.regs rd) 2)
  pure { c with mmu := m2 }

/-- Handler `__instruction_sw`. -/
def instruction_sw (c : CPU) (ins : LoadedInstruction) : Except EmuErr CPU := do
  let (rd, addr) ← parse_mem_ins c ins
  let m2 ← c.mmu.write addr 4 (int_to_bytes (c.regs rd) 4)
  pure { c with mmu := m2 }

/-- Handler `__instruction_sll`: logical left shift of the unsigned
reinterpretation, shift amount masked with `& 0b11111`, result
reinterpreted back as signed. -/
def instruction_sll (c : CPU) (ins : LoadedInstruction) : Except EmuErr CPU := do
  ASSERT_LEN ins.args 3
  let dst ← ins.get_reg 0
  let src1 ← ins.get_reg 1
  let src2 ← ins.get_reg 2
  pure { c with regs := regs_set c.regs dst (to_signed (pyShiftL (to_unsigned (c.regs src1)) (Int.land (c.regs src2) 31))) }

/-- Handler `__instruction_slli`. -/
def instruction_slli (c : CPU) (ins : LoadedInstruction) : Except EmuErr CPU := do
  ASSERT_LEN ins.args 3
  let dst ← ins.get_reg 0
  let src1 ← ins.get_reg 1
  let imm ← ins.get_imm 2
  pure { c with regs := regs_set c.regs dst (to_signed (pyShiftL (to_unsigned (c.regs src1)) (Int.land imm 31))) }

/-- Handler `__instruction_srl`: logical right shift of the unsigned
reinterpretation, result reinterpreted back as signed. -/
def instruction_srl (c : CPU) (ins : LoadedInstruction) : Except EmuErr CPU := do
  ASSERT_LEN ins.args 3
  let dst ← ins.get_reg 0
  let src1 ← ins.get_reg 1
  let src2 ← ins.get_reg 2
  pure { c with regs := regs_set c.regs dst (to_signed (pyShiftR (to_unsigned (c.regs src1)) (Int.land (c.regs src2) 31))) }

/-- Handler `__instruction_srli`. -/
def instruction_srli (c : CPU) (ins : LoadedInstruction) : Except EmuErr CPU := do
  ASSERT_LEN ins.args 3
  let dst ← ins.get_reg 0
  let src1 ← ins.get_reg 1
  let imm ← ins.get_imm 2
  pure { c with regs := regs_set c.regs dst (to_signed (pyShiftR (to_unsigned (c.regs src1)) (Int.land imm 31))) }

/-- Handler `__instruction_sra`: arithmetic right shift directly on the
signed value. -/
def instruction_sra (c : CPU) (ins : LoadedInstruction) : Except EmuErr CPU := do
  ASSERT_LEN ins.args 3
  let dst ← ins.get_reg 0
  let src1 ← ins.get_reg 1
  let src2 ← ins.get_reg 2
  pure { c with regs := regs_set c.regs dst (pyShiftR (c.regs src1) (Int.land (c.regs src2) 31)) }

/-- Handler `__instruction_srai`. -/
def instruction_srai (c : CPU) (ins : LoadedInstruction) : Except EmuErr CPU := do
  ASSERT_LEN ins.args 3
  let dst ← ins.get_reg 0
  let src1 ← ins.get_reg 1
  let imm ← ins.get_imm 2
  pure { c with regs := regs_set c.regs dst (pyShiftR (c.regs src1) (Int.land imm 31)) }

/-- Handler `__instruction_add`. -/
def instruction_add (c : CPU) (ins : LoadedInstruction) : Except EmuErr CPU := do
  ASSERT_LEN ins.args 3
  let dst ← ins.get_reg 0
  let src1 ← ins.get_reg 1
  let src2 ← ins.get_reg 2
  pure { c with regs := regs_set c.regs dst (c.regs src1 + c.regs src2) }

/-- Handler `__instruction_addi`. -/
def instruction_addi (c : CPU) (ins : LoadedInstruction) : Except EmuErr CPU := do
  ASSERT_LEN ins.args 3
  let dst ← ins.get_reg 0
  let src1 ← ins.get_reg 1
  let imm ← ins.get_imm 2
  pure { c with regs := regs_set c.regs dst (c.regs src1 + imm) }

/-- Handler `__instruction_sub`. -/
def instruction_sub (c : CPU) (ins : LoadedInstruction) : Except EmuErr CPU := do
  ASSERT_LEN ins.args 3
  let dst ← ins.get_reg 0
  let src1 ← ins.get_reg 1
  let src2 ← ins.get_reg 2
  pure { c with regs := regs_set c.regs dst (c.regs src1 - c.regs src2) }

/-- Handler `__instruction_lui`: unimplemented. -/
def instruction_lui (c : CPU) (ins : LoadedInstruction) : Except EmuErr CPU :=
  INS_NOT_IMPLEMENTED ins

/-- Handler `__instruction_auipc`: unimplemented. -/
def instruction_auipc (c : CPU) (ins : LoadedInstruction) : Except EmuErr CPU :=
  INS_NOT_IMPLEMENTED ins

/-- Handler `__instruction_xor` (Python `^` on twos-complement integers). -/
def instruction_xor (c : CPU) (ins : LoadedInstruction) : Except EmuErr CPU := do
  ASSERT_LEN ins.args 3
  let dst ← ins.get_reg 0
  let src1 ← ins.get_reg 1
  let src2 ← ins.get_reg 2
  pure { c with regs := regs_set c.regs dst (Int.xor (c.regs src1) (c.regs src2)) }

/-- Handler `__instruction_xori`: unimplemented. -/
def instruction_xori (c : CPU) (ins : LoadedInstruction) : Except EmuErr CPU :=
  INS_NOT_IMPLEMENTED ins

/-- Handler `__instruction_or` (Python `|`). -/
def instruction_or (c : CPU) (ins : LoadedInstruction) : Except EmuErr CPU := do
  ASSERT_LEN ins.args 3
  let dst ← ins.get_reg 0
  let src1 ← ins.get_reg 1
  let src2 ← ins.get_reg 2
  pure { c with regs := regs_set c.regs dst (Int.lor (c.regs src1) (c.regs src2)) }

/-- Handler `__instruction_ori`: unimplemented. -/
def instruction_ori (c : CPU) (ins : LoadedInstruction) : Except EmuErr CPU :=
  INS_NOT_IMPLEMENTED ins

/-- Handler `__instruction_and` (Python `&`). -/
def instruction_and (c : CPU) (ins : LoadedInstruction) : Except EmuErr CPU := do
  ASSERT_LEN ins.args 3
  let dst ← ins.get_reg 0
  let src1 ← ins.get_reg 1
  let src2 ← ins.get_reg 2
  pure { c with regs := regs_set c.regs dst (Int.land (c.regs src1) (c.regs src2)) }

/-- Handler `__instruction_andi`: unimplemented. -/
def instruction_andi (c : CPU) (ins : LoadedInstruction) : Except EmuErr CPU :=
  INS_NOT_IMPLEMENTED ins

/-- Handler `__instruction_slt`: signed comparison, stores `int(a < b)`. -/
def instruction_slt (c : CPU) (ins : LoadedInstruction) : Except EmuErr CPU := do
  ASSERT_LEN ins.args 3
  let dst ← ins.get_reg 0
  let src1 ← ins.get_reg 1
  let src2 ← ins.get_reg 2
  pure { c with regs := regs_set c.regs dst (if c.regs src1 < c.regs src2 then 1 else 0) }

/-- Handler `__instruction_slti`: unimplemented. -/
def instruction_slti (c : CPU) (ins : LoadedInstruction) : Except EmuErr CPU :=
  INS_NOT_IMPLEMENTED ins

/-- Handler `__instruction_sltu`: both register values coerced to unsigned
before the comparison. -/
def instruction_sltu (c : CPU) (ins : LoadedInstruction) : Except EmuErr CPU := do
  ASSERT_LEN ins.args 3
  let dst ← ins.get_reg 0
  let src1 ← ins.get_reg 1
  let src2 ← ins.get_reg 2
  pure { c with regs := regs_set c.regs dst (if to_unsigned (c.regs src1) < to_unsigned (c.regs src2) then 1 else 0) }

/-- Handler `__instruction_sltiu`: unimplemented. -/
def instruction_sltiu (c : CPU) (ins : LoadedInstruction) : Except EmuErr CPU :=
  INS_NOT_IMPLEMENTED ins

/-- Handler `__instruction_beq`. -/
def instruction_beq (c : CPU) (ins : LoadedInstruction) : Except EmuErr CPU := do
  ASSERT_LEN ins.args 3
  let reg1 ← ins.get_reg 0
  let reg2 ← ins.get_reg 1
  let dest ← ins.get_imm 2
  if c.regs reg1 = c.regs reg2 then pure { c with pc := dest } else pure c

/-- Handler `__instruction_bne`. -/
def instruction_bne (c : CPU) (ins : LoadedInstruction) : Except EmuErr CPU := do
  ASSERT_LEN ins.args 3
  let reg1 ← ins.get_reg 0
  let reg2 ← ins.get_reg 1
  let dest ← ins.get_imm 2
  if c.regs reg1 ≠ c.regs reg2 then pure { c with pc := dest } else pure c

/-- Handler `__instruction_blt` (signed comparison). -/
def instruction_blt (c : CPU) (ins : LoadedInstruction) : Except EmuErr CPU := do
  ASSERT_LEN ins.args 3
  let reg1 ← ins.get_reg 0
  let reg2 ← ins.get_reg 1
  let dest ← ins.get_imm 2
  if c.regs reg1 < c.regs reg2 then pure { c with pc := dest } else pure c

/-- Handler `__instruction_bge` (signed comparison). -/
def instruction_bge (c : CPU) (ins : LoadedInstruction) : Except EmuErr CPU := do
  ASSERT_LEN ins.args 3
  let reg1 ← ins.get_reg 0
  let reg2 ← ins.get_reg 1
  let dest ← ins.get_imm 2
  if c.regs reg1 ≥ c.regs reg2 then pure { c with pc := dest } else pure c

/-- Handler `__instruction_bltu`.  Faithful to the source: the result of
`ins.get_reg`, which is the register *name*, is passed to `to_unsigned`
(`reg1 = to_unsigned(ins.get_reg(0))`), and the comparison that would follow
is on raw register values. -/
def instruction_bltu (c : CPU) (ins : LoadedInstruction) : Except EmuErr CPU := do
  ASSERT_LEN ins.args 3
  let n1 ← ins.get_reg 0
  let reg1 ← to_unsigned_py (.str n1)
  let n2 ← ins.get_reg 1
  let reg2 ← to_unsigned_py (.str n2)
  let dest ← ins.get_imm 2
  let v1 ← regs_get_py c.regs reg1
  let v2 ← regs_get_py c.regs reg2
  if v1 < v2 then pure { c with pc := dest } else pure c

/-- Handler `__instruction_bgeu`.  Same name/value confusion as `bltu`. -/
def instruction_bgeu (c : CPU) (ins : LoadedInstruction) : Except EmuErr CPU := do
  ASSERT_LEN ins.args 3
  let n1 ← ins.get_reg 0
  let reg1 ← to_unsigned_py (.str n1)
  let n2 ← ins.get_reg 1
  let reg2 ← to_unsigned_py (.str n2)
  let dest ← ins.get_imm 2
  let v1 ← regs_get_py c.regs reg1
  let v2 ← regs_get_py c.regs reg2
  if v1 ≥ v2 then pure { c with pc := dest } else pure c

/-- Handler `__instruction_j`. -/
def instruction_j (c : CPU) (ins : LoadedInstruction) : Except EmuErr CPU := do
  ASSERT_LEN ins.args 1
  let addr ← ins.get_imm 0
  pure { c with pc := addr }

/-- Handler `__instruction_jal`: default link register is `ra`; the current
(already advanced) pc is linked before pc is set to the target. -/
def instruction_jal (c : CPU) (ins : LoadedInstruction) : Except EmuErr CPU := do
  if ins.args.length = 1 then
    let addr ← ins.get_imm 0
    pure { c with regs := regs_set c.regs "ra" c.pc, pc := addr }
  else
    ASSERT_LEN ins.args 2
    let reg ← ins.get_reg 0
    let addr ← ins.get_imm 1
    pure { c with regs := regs_set c.regs reg c.pc, pc := addr }

/-- Handler `__instruction_jalr`. -/
def instruction_jalr (c : CPU) (ins : LoadedInstruction) : Except EmuErr CPU := do
  ASSERT_LEN ins.args 2
  let reg ← ins.get_reg 0
  let addr ← ins.get_imm 1
  pure { c with regs := regs_set c.regs reg c.pc, pc := addr }

/-- Handler `__instruction_ret`: pc is set to the value in `ra`. -/
def instruction_ret (c : CPU) (ins : LoadedInstruction) : Except EmuErr CPU := do
  ASSERT_LEN ins.args 0
  pure { c with pc := c.regs "ra" }

/-- Handler `__instruction_scall`.  Modelled from the spec: the syscall
collaborator receives the syscall number from `a7` and full engine access;
its effect (including possibly setting the exit flag, or raising a syscall
fault of the catchable family) is an abstract parameter `sys`. -/
def instruction_scall (sys : Int → CPU → Except EmuErr CPU) (c : CPU)
    (ins : LoadedInstruction) : Except EmuErr CPU := do
  ASSERT_LEN ins.args 0
  sys (c.regs "a7") c

/-- Handler `__instruction_ecall`: delegates to `scall`. -/
def instruction_ecall (sys : Int → CPU → Except EmuErr CPU) (c : CPU)
    (ins : LoadedInstruction) : Except EmuErr CPU :=
  instruction_scall sys c ins

/-- Handler `__instruction_sbreak`.  Modelled from the spec: the debug
session collaborator receives full state, blocks, and returns control; it is
an abstract parameter `dbg`. -/
def instruction_sbreak (dbg : CPU → CPU) (c : CPU)
    (_ins : LoadedInstruction) : Except EmuErr CPU :=
  .ok (dbg c)

/-- Handler `__instruction_ebreak`: delegates to `sbreak`. -/
def instruction_ebreak (dbg : CPU → CPU) (c : CPU)
    (ins : LoadedInstruction) : Except EmuErr CPU :=
  instruction_sbreak dbg c ins

/-- Handler `__instruction_nop`: no state change. -/
def instruction_nop (c : CPU) (_ins : LoadedInstruction) : Except EmuErr CPU :=
  pure c

/-- Type of an instruction handler. -/
def Handler : Type := CPU → LoadedInstruction → Except EmuErr CPU

/-- Dispatch registry: exactly the `_CPU__instruction_*` methods defined on
the `CPU` class, keyed by mnemonic (the source looks a handler up
dynamically with `hasattr`/`getattr`; the registry is that mapping). -/
def instruction_table (sys : Int → CPU → Except EmuErr CPU)
    (dbg : CPU → CPU) : List (String × Handler) :=
  [("lb", instruction_lb), ("lh", instruction_lh), ("lw", instruction_lw),
   ("lbu", instruction_lbu), ("lhu", instruction_lhu),
   ("sb", instruction_sb), ("sh", instruction_sh), ("sw", instruction_sw),
   ("sll", instruction_sll), ("slli", instruction_slli),
   ("srl", instruction_srl), ("srli", instruction_srli),
   ("sra", instruction_sra), ("srai", instruction_srai),
   ("add", instruction_add), ("addi", instruction_addi), ("sub", instruction_sub),
   ("lui", instruction_lui), ("auipc", instruction_auipc),
   ("xor", instruction_xor), ("xori", instruction_xori),
   ("or", instruction_or), ("ori", instruction_ori),
   ("and", instruction_and), ("andi", instruction_andi),
   ("slt", instruction_slt), ("slti", instruction_slti),
   ("sltu", instruction_sltu), ("sltiu", instruction_sltiu),
   ("beq", instruction_beq), ("bne", instruction_bne),
   ("blt", instruction_blt), ("bge", instruction_bge),
   ("bltu", instruction_bltu), ("bgeu", instruction_bgeu),
   ("j", instruction_j), ("jal", instruction_jal), ("jalr", instruction_jalr),
   ("ret", instruction_ret),
   ("ecall", instruction_ecall sys), ("ebreak", instruction_ebreak dbg),
   ("scall", instruction_scall sys), ("sbreak", instruction_sbreak dbg),
   ("nop", instruction_nop)]

/-- Dispatcher `__run_instruction`: look the mnemonic up in the handler
registry; a mnemonic with no registered handler raises a host-level
`RuntimeError` ("Unknown instruction"), not a member of the catchable fault
family. -/
def run_instruction (sys : Int → CPU → Except EmuErr CPU) (dbg : CPU → CPU)
    (c : CPU) (ins : LoadedInstruction) : Except EmuErr CPU :=
  match List.lookup ins.name (instruction_table sys dbg) with
  | some h => h c ins
  | none => .error (.runtimeError ("Unknown instruction: " ++ ins.name))

/-- Introspection `all_instructions`: the mnemonics enumerable from the live
handler registry. -/
def all_instructions (sys : Int → CPU → Except EmuErr CPU)
    (dbg : CPU → CPU) : List String :=
  (instruction_table sys dbg).map Prod.fst

/-- Outcome of a (fuel-bounded) run of the dispatch loop `__run`:
`finished` is a normal return (with the optionally caught-and-reported
fault as (reported pc, last fetched instruction) and the reported exit
code), `crashed` is an exception propagating out of the loop boundary,
`notStarted` is the early `return False` for `pc <= 0`. -/
inductive RunOutcome where
  | finished (final : CPU) (caught : Option (Int × Option LoadedInstruction))
      (reportedExit : Int)
  | crashed (e : EmuErr) (s : CPU)
  | outOfFuel (s : CPU)
  | notStarted (s : CPU)

/-- Dispatch loop body of `__run`: while not exit, increment the cycle
counter, fetch at pc (which may fault), advance pc, dispatch.  A raised
error of the `RiscemuBaseException` family is caught at the loop boundary:
the faulting context is reported as `(pc - 1, last fetched instruction)`
(the values the source formats), the debug session is entered if configured,
and the loop returns normally with the exit code reported after the loop;
any other error propagates. -/
def run (sys : Int → CPU → Except EmuErr CPU) (dbg : CPU → CPU) :
    Nat → Option LoadedInstruction → CPU → RunOutcome
  | 0, _, c => .outOfFuel c
  | fuel + 1, last, c =>
    if c.exit then .finished c none c.exit_code
    else
      let c1 : CPU := { c with cycle := c.cycle + 1 }
      match c1.mmu.read_ins c1.pc with
      | .error e =>
        if isRiscemuBaseException e then
          let cf : CPU := if c1.conf.debug_on_exception then dbg c1 else c1
          .finished cf (some (c1.pc - 1, last)) cf.exit_code
        else .crashed e c1
      | .ok ins =>
        let c2 : CPU := { c1 with pc := c1.pc + 1 }
        match run_instruction sys dbg c2 ins with
        | .error e =>
          if isRiscemuBaseException e then
            let cf : CPU := if c2.conf.debug_on_exception then dbg c2 else c2
            .finished cf (some (c2.pc - 1, some ins)) cf.exit_code
          else .crashed e c2
        | .ok c3 => run sys dbg fuel (some ins) c3

/-- Entry guard of `__run`: with `pc <= 0` the loop never executes and the
method returns immediately (no exit-code report). -/
def cpu_run (sys : Int → CPU → Except EmuErr CPU) (dbg : CPU → CPU)
    (fuel : Nat) (c : CPU) : RunOutcome :=
  if c.pc ≤ 0 then .notStarted c else run sys dbg fuel none c

/-- Trivial syscall collaborator used to instantiate theorems on concrete
machines. -/
def sysNone : Int → CPU → Except EmuErr CPU := fun _ c => .ok c

/-- Trivial debug collaborator used to instantiate theorems on concrete
machines. -/
def dbgNone : CPU → CPU := id

/-- Concrete machine with all-zero registers and empty memory. -/
def cpu0 : CPU :=
  { pc := 0, cycle := 0, exit := false, exit_code := 0,
    conf := { include_scall_symbols := false, debug_on_exception := false },
    regs := fun _ => 0,
    mmu := { prog := fun _ => none, mem := fun _ => none } }

/-- Concrete machine for the branch counterexamples: `a0 = 1`, `a1 = 2`. -/
def cpuB : CPU :=
  { cpu0 with regs := fun r => if r = "a0" then 1 else if r = "a1" then 2 else 0 }

/-- Concrete machine whose pc points at an unmapped address 5. -/
def cpuF : CPU := { cpu0 with pc := 5 }

/-- Concrete machine for the jal/ret witness: pc already advanced to 7. -/
def cpuJ : CPU := { cpu0 with pc := 7 }

/-- Instruction memory holding a single instruction with the unregistered
mnemonic "mul" at address 1. -/
def mmuU : MMU :=
  { prog := fun a => if a = 1 then some { name := "mul", args := [] } else none,
    mem := fun _ => none }

/-- Concrete machine whose pc points at an instruction with the unregistered
mnemonic "mul". -/
def cpuU : CPU := { cpu0 with pc := 1, mmu := mmuU }

/-- Inversion of a successful `Except` bind. -/
theorem bind_ok {α β : Type} {x : Except EmuErr α} {f : α → Except EmuErr β} {b : β}
    (h : (x >>= f) = .ok b) : ∃ a, x = .ok a ∧ f a = .ok b := by
  cases x with
  | error e => simp [Bind.bind, Except.bind] at h
  | ok a => exact ⟨a, rfl, by simpa [Bind.bind, Except.bind] using h⟩

/-- Bitwise difference against the five-bit mask, as arithmetic. -/
theorem nat_ldiff_31 (m : Nat) : Nat.ldiff 31 m = 31 - m % 32 := by
  have hlt : m % 32 < 32 := Nat.mod_lt _ (by norm_num)
  have hx : ∀ r, r < 32 → 31 - r = 31 ^^^ r := by decide
  apply Nat.eq_of_testBit_eq
  intro i
  rw [Nat.testBit_ldiff, hx _ hlt, Nat.testBit_xor]
  have h32 : (32 : Nat) = 2 ^ 5 := by norm_num
  have h31 : (31 : Nat) = 2 ^ 5 - 1 := by norm_num
  rw [h32, h31, Nat.testBit_mod_two_pow, Nat.testBit_two_pow_sub_one]
  cases h : decide (i < 5) <;> cases hb : m.testBit i <;> simp

/-- Python's `x & 0b11111` on a twos-complement integer keeps the low five
bits, i.e. equals `x % 32` (floor modulus). -/
theorem int_land_31 (v : Int) : Int.land v 31 = v % 32 := by
  cases v with
  | ofNat n =>
    show (Int.ofNat (n &&& 31)) = Int.ofNat n % 32
    have h : (31 : Nat) = 2 ^ 5 - 1 := by norm_num
    rw [h, Nat.and_pow_two_sub_one_eq_mod]
    have h2 : (2 : Nat) ^ 5 = 32 := by norm_num
    rw [h2]
    simp only [Int.ofNat_eq_natCast]
    omega
  | negSucc m =>
    show (Int.ofNat (Nat.ldiff 31 m)) = Int.negSucc m % 32
    rw [nat_ldiff_31]
    have hns := Int.negSucc_eq m
    simp only [Int.ofNat_eq_natCast]
    omega

/-- The stored register word is always in the signed 32-bit range. -/
theorem toSigned32_range (v : Int) :
    -2147483648 ≤ toSigned32 v ∧ toSigned32 v < 2147483648 := by
  unfold toSigned32
  constructor <;> split <;> omega

/-- Storing a value already in the signed 32-bit range is the identity. -/
theorem toSigned32_of_range (v : Int) (h1 : -2147483648 ≤ v) (h2 : v < 2147483648) :
    toSigned32 v = v := by
  unfold toSigned32
  split <;> omega

/-- C1: the spec claims `bltu`/`bgeu` coerce both register operands' current
VALUES to unsigned before comparing, and set pc by the unsigned comparison.
The source instead passes the register NAMES returned by `get_reg` to
`to_unsigned` (`reg1 = to_unsigned(ins.get_reg(0))`), so the numeric
coercion receives a string: executing `bltu a0, a1, 4` raises a host-level
`TypeError` outside the catchable fault family before any comparison
happens, and pc is never set by an unsigned comparison.  (Even if the
coercion passed the name through unchanged, the comparison that follows,
`self.regs.get(reg1) < self.regs.get(reg2)`, is on raw signed values.) -/
theorem bltu_coerces_names_not_values :
    instruction_bltu cpuB { name := "bltu", args := [.reg "a0", .reg "a1", .imm 4] } =
      .error .typeError
    ∧ isRiscemuBaseException .typeError = false :=
  ⟨rfl, rfl⟩

/-- C7: the spec claims every branch instruction either sets pc to exactly
the immediate target (condition holds) or leaves pc at the post-fetch
fallthrough value (condition fails).  For `bgeu` (and `bltu`) the handler
instead passes the register names to the numeric coercion `to_unsigned` and
raises a host-level `TypeError`: executing `bgeu a0, a1, 9` produces no
successor state at all, so pc is neither the target nor the fallthrough and
the run crashes. -/
theorem bgeu_neither_target_nor_fallthrough :
    instruction_bgeu cpuB { name := "bgeu", args := [.reg "a0", .reg "a1", .imm 9] } =
      .error .typeError
    ∧ isRiscemuBaseException .typeError = false
    ∧ ∀ c2, instruction_bgeu cpuB { name := "bgeu", args := [.reg "a0", .reg "a1", .imm 9] } ≠
        .ok c2 :=
  ⟨rfl, rfl, fun _ h => Except.noConfusion h⟩

/-- C2: `add`, `addi` and `sub` store the plain mathematical result through
the register file, whose word-sized twos-complement storage reduces it
modulo 2^32 into [-2^31, 2^31): wraparound, never a fault and never a value
outside the signed 32-bit range; in particular adding 0x7FFFFFFF and 1
stores the minimum negative value -2^31. -/
theorem add_addi_sub_wrap (c : CPU) (dst s1 s2 : String) (v : Int) :
    (instruction_add c { name := "add", args := [.reg dst, .reg s1, .reg s2] } =
      .ok { c with regs := regs_set c.regs dst (c.regs s1 + c.regs s2) })
    ∧ (instruction_addi c { name := "addi", args := [.reg dst, .reg s1, .imm v] } =
      .ok { c with regs := regs_set c.regs dst (c.regs s1 + v) })
    ∧ (instruction_sub c { name := "sub", args := [.reg dst, .reg s1, .reg s2] } =
      .ok { c with regs := regs_set c.regs dst (c.regs s1 - c.regs s2) })
    ∧ (regs_set c.regs dst v dst = toSigned32 v)
    ∧ (-2147483648 ≤ regs_set c.regs dst v dst ∧ regs_set c.regs dst v dst < 2147483648)
    ∧ (regs_set c.regs dst (2147483647 + 1) dst = -2147483648) := by
  refine ⟨rfl, rfl, rfl, by simp [regs_set], ?_, by simp [regs_set]; decide⟩
  simp only [regs_set, if_pos rfl]
  exact toSigned32_range v

/-- C3: `jal` with a single immediate operand writes the current
(post-fetch-advance) pc into the default link register `ra` and then sets pc
to the target; executing `ret` (zero operands) from the resulting state sets
pc back to exactly that recorded value. -/
theorem jal_links_ra_and_ret_restores (c : CPU) (addr : Int)
    (h1 : -2147483648 ≤ c.pc) (h2 : c.pc < 2147483648) :
    ∃ c1, instruction_jal c { name := "jal", args := [.imm addr] } = .ok c1
      ∧ c1.regs "ra" = c.pc ∧ c1.pc = addr
      ∧ ∃ c2, instruction_ret c1 { name := "ret", args := [] } = .ok c2
        ∧ c2.pc = c.pc := by
  have hra : regs_set c.regs "ra" c.pc "ra" = c.pc := by
    simp only [regs_set, if_pos rfl]
    exact toSigned32_of_range c.pc h1 h2
  refine ⟨_, rfl, hra, rfl, _, rfl, ?_⟩
  show regs_set c.regs "ra" c.pc "ra" = c.pc
  exact hra

/-- Witness for C3 at the concrete machine `cpuJ` (pc = 7, target 42). -/
theorem jal_links_ra_and_ret_restores_witness :
    ∃ c1, instruction_jal cpuJ { name := "jal", args := [.imm 42] } = .ok c1
      ∧ c1.regs "ra" = cpuJ.pc ∧ c1.pc = 42
      ∧ ∃ c2, instruction_ret c1 { name := "ret", args := [] } = .ok c2
        ∧ c2.pc = cpuJ.pc :=
  jal_links_ra_and_ret_restores cpuJ 42 (by decide) (by decide)

/-- C5: for `sll`, `srl`, `sra` and their immediate forms, the shift
distance actually applied is the source-register value or immediate taken
modulo 32 (`& 0b11111` masks to the low five bits); in particular an
immediate shift by 33 stores the same result as a shift by 1, for every
input value. -/
theorem shift_amount_taken_mod_32 (c : CPU) (dst s1 s2 : String) (k : Int) :
    (instruction_sll c { name := "sll", args := [.reg dst, .reg s1, .reg s2] } =
      .ok { c with regs := regs_set c.regs dst (to_signed (pyShiftL (to_unsigned (c.regs s1)) (c.regs s2 % 32))) })
    ∧ (instruction_slli c { name := "slli", args := [.reg dst, .reg s1, .imm k] } =
      .ok { c with regs := regs_set c.regs dst (to_signed (pyShiftL (to_unsigned (c.regs s1)) (k % 32))) })
    ∧ (instruction_srl c { name := "srl", args := [.reg dst, .reg s1, .reg s2] } =
      .ok { c with regs := regs_set c.regs dst (to_signed (pyShiftR (to_unsigned (c.regs s1)) (c.regs s2 % 32))) })
    ∧ (instruction_srli c { name := "srli", args := [.reg dst, .reg s1, .imm k] } =
      .ok { c with regs := regs_set c.regs dst (to_signed (pyShiftR (to_unsigned (c.regs s1)) (k % 32))) })
    ∧ (instruction_sra c { name := "sra", args := [.reg dst, .reg s1, .reg s2] } =
      .ok { c with regs := regs_set c.regs dst (pyShiftR (c.regs s1) (c.regs s2 % 32)) })
    ∧ (instruction_srai c { name := "srai", args := [.reg dst, .reg s1, .imm k] } =
      .ok { c with regs := regs_set c.regs dst (pyShiftR (c.regs s1) (k % 32)) })
    ∧ (instruction_slli c { name := "slli", args := [.reg dst, .reg s1, .imm 33] } =
      instruction_slli c { name := "slli", args := [.reg dst, .reg s1, .imm 1] })
    ∧ (instruction_srli c { name := "srli", args := [.reg dst, .reg s1, .imm 33] } =
      instruction_srli c { name := "srli", args := [.reg dst, .reg s1, .imm 1] })
    ∧ (instruction_srai c { name := "srai", args := [.reg dst, .reg s1, .imm 33] } =
      instruction_srai c { name := "srai", args := [.reg dst, .reg s1, .imm 1] }) := by
  refine ⟨?_, ?_, ?_, ?_, ?_, ?_, ?_, ?_, ?_⟩
  · rw [show instruction_sll c { name := "sll", args := [.reg dst, .reg s1, .reg s2] } = Except.ok { c with regs := regs_set c.regs dst (to_signed (pyShiftL (to_unsigned (c.regs s1)) (Int.land (c.regs s2) 31))) } from rfl, int_land_31]
  · rw [show instruction_slli c { name := "slli", args := [.reg dst, .reg s1, .imm k] } = Except.ok { c with regs := regs_set c.regs dst (to_signed (pyShiftL (to_unsigned (c.regs s1)) (Int.land k 31))) } from rfl, int_land_31]
  · rw [show instruction_srl c { name := "srl", args := [.reg dst, .reg s1, .reg s2] } = Except.ok { c with regs := regs_set c.regs dst (to_signed (pyShiftR (to_unsigned (c.regs s1)) (Int.land (c.regs s2) 31))) } from rfl, int_land_31]
  · rw [show instruction_srli c { name := "srli", args := [.reg dst, .reg s1, .imm k] } = Except.ok { c with regs := regs_set c.regs dst (to_signed (pyShiftR (to_unsigned (c.regs s1)) (Int.land k 31))) } from rfl, int_land_31]
  · rw [show instruction_sra c { name := "sra", args := [.reg dst, .reg s1, .reg s2] } = Except.ok { c with regs := regs_set c.regs dst (pyShiftR (c.regs s1) (Int.land (c.regs s2) 31)) } from rfl, int_land_31]
  · rw [show instruction_srai c { name := "srai", args := [.reg dst, .reg s1, .imm k] } = Except.ok { c with regs := regs_set c.regs dst (pyShiftR (c.regs s1) (Int.land k 31)) } from rfl, int_land_31]
  · rw [show instruction_slli c { name := "slli", args := [.reg dst, .reg s1, .imm 33] } = Except.ok { c with regs := regs_set c.regs dst (to_signed (pyShiftL (to_unsigned (c.regs s1)) (Int.land 33 31))) } from rfl]
    rw [show instruction_slli c { name := "slli", args := [.reg dst, .reg s1, .imm 1] } = Except.ok { c with regs := regs_set c.regs dst (to_signed (pyShiftL (to_unsigned (c.regs s1)) (Int.land 1 31))) } from rfl]
    simp only [int_land_31]
    norm_num
  · rw [show instruction_srli c { name := "srli", args := [.reg dst, .reg s1, .imm 33] } = Except.ok { c with regs := regs_set c.regs dst (to_signed (pyShiftR (to_unsigned (c.regs s1)) (Int.land 33 31))) } from rfl]
    rw [show instruction_srli c { name := "srli", args := [.reg dst, .reg s1, .imm 1] } = Except.ok { c with regs := regs_set c.regs dst (to_signed (pyShiftR (to_unsigned (c.regs s1)) (Int.land 1 31))) } from rfl]
    simp only [int_land_31]
    norm_num
  · rw [show instruction_srai c { name := "srai", args := [.reg dst, .reg s1, .imm 33] } = Except.ok { c with regs := regs_set c.regs dst (pyShiftR (c.regs s1) (Int.land 33 31)) } from rfl]
    rw [show instruction_srai c { name := "srai", args := [.reg dst, .reg s1, .imm 1] } = Except.ok { c with regs := regs_set c.regs dst (pyShiftR (c.regs s1) (Int.land 1 31)) } from rfl]
    simp only [int_land_31]
    norm_num

/-- Unsigned reinterpretation of a signed 32-bit word lies in [0, 2^32). -/
theorem to_unsigned_bounds (v : Int) (h1 : -2147483648 ≤ v) (h2 : v < 2147483648) :
    0 ≤ to_unsigned v ∧ to_unsigned v < 4294967296 := by
  unfold to_unsigned
  constructor <;> split <;> omega

/-- A logical right shift of an in-range word by 1..31 places is
non-negative after the reinterpretation back to signed. -/
theorem srl_value_nonneg (v k2 : Int) (h1 : -2147483648 ≤ v) (h2 : v < 2147483648)
    (h3 : 1 ≤ k2) (h4 : k2 ≤ 31) : 0 ≤ to_signed (pyShiftR (to_unsigned v) k2) := by
  obtain ⟨hu0, hu32⟩ := to_unsigned_bounds v h1 h2
  have hK1 : 1 ≤ k2.toNat := by omega
  have h2K : (2 : Int) ≤ 2 ^ k2.toNat := by
    calc (2 : Int) = 2 ^ 1 := by norm_num
    _ ≤ 2 ^ k2.toNat := by exact pow_le_pow_right₀ (by norm_num) hK1
  have hpos : (0 : Int) < 2 ^ k2.toNat := by positivity
  have hdiv0 : 0 ≤ to_unsigned v / 2 ^ k2.toNat := Int.ediv_nonneg hu0 (le_of_lt hpos)
  have hdivlt : to_unsigned v / 2 ^ k2.toNat < 2147483648 := by
    apply Int.ediv_lt_of_lt_mul hpos
    have hm : (2147483648 : Int) * 2 ≤ 2147483648 * 2 ^ k2.toNat :=
      mul_le_mul_of_nonneg_left h2K (by norm_num)
    omega
  unfold to_signed pyShiftR
  split <;> omega

/-- An arithmetic right shift of a negative value stays negative. -/
theorem sra_value_neg (v k2 : Int) (hv : v < 0) : pyShiftR v k2 < 0 :=
  Int.ediv_neg' hv (by positivity)

/-- C6: `srl`/`srli` shift the unsigned reinterpretation of the register
value and the result is reinterpreted back to signed storage, filling the
vacated high bits with 0: for any in-range word, a shift by 1..31 places is
non-negative, and a one-place shift of the value whose only set bit is the
sign bit (-2^31) yields 2^30.  `sra`/`srai` shift the signed value directly,
filling with the sign bit: a negative value stays negative, and the same
input yields -2^30. -/
theorem srl_logical_sra_arithmetic (c : CPU) (dst s1 s2 : String) (k : Int) :
    (instruction_srl c { name := "srl", args := [.reg dst, .reg s1, .reg s2] } =
      .ok { c with regs := regs_set c.regs dst (to_signed (pyShiftR (to_unsigned (c.regs s1)) (c.regs s2 % 32))) })
    ∧ (instruction_srli c { name := "srli", args := [.reg dst, .reg s1, .imm k] } =
      .ok { c with regs := regs_set c.regs dst (to_signed (pyShiftR (to_unsigned (c.regs s1)) (k % 32))) })
    ∧ (instruction_sra c { name := "sra", args := [.reg dst, .reg s1, .reg s2] } =
      .ok { c with regs := regs_set c.regs dst (pyShiftR (c.regs s1) (c.regs s2 % 32)) })
    ∧ (instruction_srai c { name := "srai", args := [.reg dst, .reg s1, .imm k] } =
      .ok { c with regs := regs_set c.regs dst (pyShiftR (c.regs s1) (k % 32)) })
    ∧ (∀ v k2 : Int, -2147483648 ≤ v → v < 2147483648 → 1 ≤ k2 → k2 ≤ 31 →
        0 ≤ to_signed (pyShiftR (to_unsigned v) k2))
    ∧ (∀ v k2 : Int, v < 0 → pyShiftR v k2 < 0)
    ∧ (to_signed (pyShiftR (to_unsigned (-2147483648)) 1) = 1073741824)
    ∧ (pyShiftR (-2147483648 : Int) 1 = -1073741824) := by
  refine ⟨?_, ?_, ?_, ?_, srl_value_nonneg, sra_value_neg, by decide, by decide⟩
  · rw [show instruction_srl c { name := "srl", args := [.reg dst, .reg s1, .reg s2] } = Except.ok { c with regs := regs_set c.regs dst (to_signed (pyShiftR (to_unsigned (c.regs s1)) (Int.land (c.regs s2) 31))) } from rfl, int_land_31]
  · rw [show instruction_srli c { name := "srli", args := [.reg dst, .reg s1, .imm k] } = Except.ok { c with regs := regs_set c.regs dst (to_signed (pyShiftR (to_unsigned (c.regs s1)) (Int.land k 31))) } from rfl, int_land_31]
  · rw [show instruction_sra c { name := "sra", args := [.reg dst, .reg s1, .reg s2] } = Except.ok { c with regs := regs_set c.regs dst (pyShiftR (c.regs s1) (Int.land (c.regs s2) 31)) } from rfl, int_land_31]
  · rw [show instruction_srai c { name := "srai", args := [.reg dst, .reg s1, .imm k] } = Except.ok { c with regs := regs_set c.regs dst (pyShiftR (c.regs s1) (Int.land k 31)) } from rfl, int_land_31]

/-- Witness for C6: the sign-bit-only word -2^31, shifted one place:
`srl` gives a non-negative result, `sra` a negative one. -/
theorem srl_logical_sra_arithmetic_witness :
    0 ≤ to_signed (pyShiftR (to_unsigned (-2147483648)) 1)
    ∧ pyShiftR (-2147483648 : Int) 1 < 0 :=
  ⟨(srl_logical_sra_arithmetic cpu0 "t0" "t1" "t2" 0).2.2.2.2.1 (-2147483648) 1
      (by norm_num) (by norm_num) (by norm_num) (by norm_num),
   (srl_logical_sra_arithmetic cpu0 "t0" "t1" "t2" 0).2.2.2.2.2.1 (-2147483648) 1
      (by norm_num)⟩

/-- C4 (amended): for every run (with either setting of the debug-on-fault
flag), a memory fault of the catchable family raised during fetch or during
an instruction's own memory access is caught at the loop boundary and the
run returns normally instead of propagating the fault: if the
debug-on-fault flag is set the debug session is entered first, and the exit
code reported is the final (post-debug) state's last-set exit code (0 if
never set).  The reported context is `(pc - 1, last fetched instruction)`
at catch time: for a fault raised by the instruction's own access this is
exactly the faulting instruction's address and the faulting instruction;
for a fault raised by the fetch itself, pc has not yet been advanced, so
the reported address is one less than the faulting fetch address and the
instruction shown is the previously fetched one. -/
theorem memory_fault_caught_at_loop_boundary
    (sys : Int → CPU → Except EmuErr CPU) (dbg : CPU → CPU)
    (fuel : Nat) (last : Option LoadedInstruction) (c : CPU) (a : Int)
    (hex : c.exit = false) :
    (c.mmu.read_ins c.pc = .error (.memoryFault a) →
      run sys dbg (fuel + 1) last c =
        .finished
          (if c.conf.debug_on_exception then dbg { c with cycle := c.cycle + 1 }
            else { c with cycle := c.cycle + 1 })
          (some (c.pc - 1, last))
          (if c.conf.debug_on_exception then (dbg { c with cycle := c.cycle + 1 }).exit_code
            else c.exit_code))
    ∧ (∀ ins, c.mmu.read_ins c.pc = .ok ins →
        run_instruction sys dbg { c with cycle := c.cycle + 1, pc := c.pc + 1 } ins =
          .error (.memoryFault a) →
        run sys dbg (fuel + 1) last c =
          .finished
            (if c.conf.debug_on_exception then
              dbg { c with cycle := c.cycle + 1, pc := c.pc + 1 }
              else { c with cycle := c.cycle + 1, pc := c.pc + 1 })
            (some (c.pc, some ins))
            (if c.conf.debug_on_exception then
              (dbg { c with cycle := c.cycle + 1, pc := c.pc + 1 }).exit_code
              else c.exit_code)) := by
  constructor
  · intro hfetch
    simp only [run, hex, Bool.false_eq_true, if_false, hfetch, isRiscemuBaseException,
      if_true, add_sub_cancel_right]
    cases hdbg : c.conf.debug_on_exception <;> simp [hdbg]
  · intro ins hfetch hrun
    simp only [hex] at hrun
    simp only [run, hex, Bool.false_eq_true, if_false, hfetch, hrun, isRiscemuBaseException,
      if_true, add_sub_cancel_right]
    cases hdbg : c.conf.debug_on_exception <;> simp [hdbg]

/-- Witness for C4: on the concrete machine `cpuF` (pc = 5, empty memory)
the fetch faults and the run finishes normally with the report and exit
code 0. -/
theorem memory_fault_caught_at_loop_boundary_witness :
    run sysNone dbgNone 1 none cpuF =
      .finished { cpuF with cycle := cpuF.cycle + 1 } (some (cpuF.pc - 1, none))
        cpuF.exit_code :=
  (memory_fault_caught_at_loop_boundary sysNone dbgNone 0 none cpuF 5 rfl).1 rfl

/-- C4 counterexample to the claim as stated: the claim says the caught
fault is reported with "the faulting pc".  On `cpuF` the fetch at pc = 5
raises `memoryFault 5`, but the run's caught report carries the address 4
(`self.pc - 1` with pc not yet advanced), which differs from the faulting
pc 5; the run still ends normally reporting exit code 0. -/
theorem fetch_fault_reported_one_before_faulting_pc :
    cpuF.mmu.read_ins cpuF.pc = .error (.memoryFault 5)
    ∧ cpu_run sysNone dbgNone 3 cpuF =
        .finished { cpuF with cycle := 1 } (some (4, none)) 0
    ∧ (4 : Int) ≠ 5 :=
  ⟨rfl, rfl, by decide⟩

/-- Successful `sll` leaves pc unchanged. -/
theorem instruction_sll_pc {c c2 : CPU} {ins : LoadedInstruction}
    (h : instruction_sll c ins = .ok c2) : c2.pc = c.pc := by
  unfold instruction_sll at h
  obtain ⟨u, hu, h⟩ := bind_ok h
  obtain ⟨dst, hd, h⟩ := bind_ok h
  obtain ⟨src1, h1, h⟩ := bind_ok h
  obtain ⟨src2, h2, h⟩ := bind_ok h
  cases h
  rfl

/-- Successful `slli` leaves pc unchanged. -/
theorem instruction_slli_pc {c c2 : CPU} {ins : LoadedInstruction}
    (h : instruction_slli c ins = .ok c2) : c2.pc = c.pc := by
  unfold instruction_slli at h
  obtain ⟨u, hu, h⟩ := bind_ok h
  obtain ⟨dst, hd, h⟩ := bind_ok h
  obtain ⟨src1, h1, h⟩ := bind_ok h
  obtain ⟨src2, h2, h⟩ := bind_ok h
  cases h
  rfl

/-- Successful `srl` leaves pc unchanged. -/
theorem instruction_srl_pc {c c2 : CPU} {ins : LoadedInstruction}
    (h : instruction_srl c ins = .ok c2) : c2.pc = c.pc := by
  unfold instruction_srl at h
  obtain ⟨u, hu, h⟩ := bind_ok h
  obtain ⟨dst, hd, h⟩ := bind_ok h
  obtain ⟨src1, h1, h⟩ := bind_ok h
  obtain ⟨src2, h2, h⟩ := bind_ok h
  cases h
  rfl

/-- Successful `srli` leaves pc unchanged. -/
theorem instruction_srli_pc {c c2 : CPU} {ins : LoadedInstruction}
    (h : instruction_srli c ins = .ok c2) : c2.pc = c.pc := by
  unfold instruction_srli at h
  obtain ⟨u, hu, h⟩ := bind_ok h
  obtain ⟨dst, hd, h⟩ := bind_ok h
  obtain ⟨src1, h1, h⟩ := bind_ok h
  obtain ⟨src2, h2, h⟩ := bind_ok h
  cases h
  rfl

/-- Successful `sra` leaves pc unchanged. -/
theorem instruction_sra_pc {c c2 : CPU} {ins : LoadedInstruction}
    (h : instruction_sra c ins = .ok c2) : c2.pc = c.pc := by
  unfold instruction_sra at h
  obtain ⟨u, hu, h⟩ := bind_ok h
  obtain ⟨dst, hd, h⟩ := bind_ok h
  obtain ⟨src1, h1, h⟩ := bind_ok h
  obtain ⟨src2, h2, h⟩ := bind_ok h
  cases h
  rfl

/-- Successful `srai` leaves pc unchanged. -/
theorem instruction_srai_pc {c c2 : CPU} {ins : LoadedInstruction}
    (h : instruction_srai c ins = .ok c2) : c2.pc = c.pc := by
  unfold instruction_srai at h
  obtain ⟨u, hu, h⟩ := bind_ok h
  obtain ⟨dst, hd, h⟩ := bind_ok h
  obtain ⟨src1, h1, h⟩ := bind_ok h
  obtain ⟨src2, h2, h⟩ := bind_ok h
  cases h
  rfl

/-- Successful `add` leaves pc unchanged. -/
theorem instruction_add_pc {c c2 : CPU} {ins : LoadedInstruction}
    (h : instruction_add c ins = .ok c2) : c2.pc = c.pc := by
  unfold instruction_add at h
  obtain ⟨u, hu, h⟩ := bind_ok h
  obtain ⟨dst, hd, h⟩ := bind_ok h
  obtain ⟨src1, h1, h⟩ := bind_ok h
  obtain ⟨src2, h2, h⟩ := bind_ok h
  cases h
  rfl

/-- Successful `addi` leaves pc unchanged. -/
theorem instruction_addi_pc {c c2 : CPU} {ins : LoadedInstruction}
    (h : instruction_addi c ins = .ok c2) : c2.pc = c.pc := by
  unfold instruction_addi at h
  obtain ⟨u, hu, h⟩ := bind_ok h
  obtain ⟨dst, hd, h⟩ := bind_ok h
  obtain ⟨src1, h1, h⟩ := bind_ok h
  obtain ⟨src2, h2, h⟩ := bind_ok h
  cases h
  rfl

/-- Successful `sub` leaves pc unchanged. -/
theorem instruction_sub_pc {c c2 : CPU} {ins : LoadedInstruction}
    (h : instruction_sub c ins = .ok c2) : c2.pc = c.pc := by
  unfold instruction_sub at h
  obtain ⟨u, hu, h⟩ := bind_ok h
  obtain ⟨dst, hd, h⟩ := bind_ok h
  obtain ⟨src1, h1, h⟩ := bind_ok h
  obtain ⟨src2, h2, h⟩ := bind_ok h
  cases h
  rfl

/-- Successful `xor` leaves pc unchanged. -/
theorem instruction_xor_pc {c c2 : CPU} {ins : LoadedInstruction}
    (h : instruction_xor c ins = .ok c2) : c2.pc = c.pc := by
  unfold instruction_xor at h
  obtain ⟨u, hu, h⟩ := bind_ok h
  obtain ⟨dst, hd, h⟩ := bind_ok h
  obtain ⟨src1, h1, h⟩ := bind_ok h
  obtain ⟨src2, h2, h⟩ := bind_ok h
  cases h
  rfl

/-- Successful `or` leaves pc unchanged. -/
theorem instruction_or_pc {c c2 : CPU} {ins : LoadedInstruction}
    (h : instruction_or c ins = .ok c2) : c2.pc = c.pc := by
  unfold instruction_or at h
  obtain ⟨u, hu, h⟩ := bind_ok h
  obtain ⟨dst, hd, h⟩ := bind_ok h
  obtain ⟨src1, h1, h⟩ := bind_ok h
  obtain ⟨src2, h2, h⟩ := bind_ok h
  cases h
  rfl

/-- Successful `and` leaves pc unchanged. -/
theorem instruction_and_pc {c c2 : CPU} {ins : LoadedInstruction}
    (h : instruction_and c ins = .ok c2) : c2.pc = c.pc := by
  unfold instruction_and at h
  obtain ⟨u, hu, h⟩ := bind_ok h
  obtain ⟨dst, hd, h⟩ := bind_ok h
  obtain ⟨src1, h1, h⟩ := bind_ok h
  obtain ⟨src2, h2, h⟩ := bind_ok h
  cases h
  rfl

/-- Successful `slt` leaves pc unchanged. -/
theorem instruction_slt_pc {c c2 : CPU} {ins : LoadedInstruction}
    (h : instruction_slt c ins = .ok c2) : c2.pc = c.pc := by
  unfold instruction_slt at h
  obtain ⟨u, hu, h⟩ := bind_ok h
  obtain ⟨dst, hd, h⟩ := bind_ok h
  obtain ⟨src1, h1, h⟩ := bind_ok h
  obtain ⟨src2, h2, h⟩ := bind_ok h
  cases h
  rfl

/-- Successful `sltu` leaves pc unchanged. -/
theorem instruction_sltu_pc {c c2 : CPU} {ins : LoadedInstruction}
    (h : instruction_sltu c ins = .ok c2) : c2.pc = c.pc := by
  unfold instruction_sltu at h
  obtain ⟨u, hu, h⟩ := bind_ok h
  obtain ⟨dst, hd, h⟩ := bind_ok h
  obtain ⟨src1, h1, h⟩ := bind_ok h
  obtain ⟨src2, h2, h⟩ := bind_ok h
  cases h
  rfl

/-- Successful `lb` leaves pc unchanged. -/
theorem instruction_lb_pc {c c2 : CPU} {ins : LoadedInstruction}
    (h : instruction_lb c ins = .ok c2) : c2.pc = c.pc := by
  unfold instruction_lb at h
  obtain ⟨a, ha, h⟩ := bind_ok h
  obtain ⟨rd, addr⟩ := a
  obtain ⟨bs, hb, h⟩ := bind_ok h
  cases h
  rfl

/-- Successful `lh` leaves pc unchanged. -/
theorem instruction_lh_pc {c c2 : CPU} {ins : LoadedInstruction}
    (h : instruction_lh c ins = .ok c2) : c2.pc = c.pc := by
  unfold instruction_lh at h
  obtain ⟨a, ha, h⟩ := bind_ok h
  obtain ⟨rd, addr⟩ := a
  obtain ⟨bs, hb, h⟩ := bind_ok h
  cases h
  rfl

/-- Successful `lw` leaves pc unchanged. -/
theorem instruction_lw_pc {c c2 : CPU} {ins : LoadedInstruction}
    (h : instruction_lw c ins = .ok c2) : c2.pc = c.pc := by
  unfold instruction_lw at h
  obtain ⟨a, ha, h⟩ := bind_ok h
  obtain ⟨rd, addr⟩ := a
  obtain ⟨bs, hb, h⟩ := bind_ok h
  cases h
  rfl

/-- Successful `lbu` leaves pc unchanged. -/
theorem instruction_lbu_pc {c c2 : CPU} {ins : LoadedInstruction}
    (h : instruction_lbu c ins = .ok c2) : c2.pc = c.pc := by
  unfold instruction_lbu at h
  obtain ⟨a, ha, h⟩ := bind_ok h
  obtain ⟨rd, addr⟩ := a
  obtain ⟨bs, hb, h⟩ := bind_ok h
  cases h
  rfl

/-- Successful `lhu` leaves pc unchanged. -/
theorem instruction_lhu_pc {c c2 : CPU} {ins : LoadedInstruction}
    (h : instruction_lhu c ins = .ok c2) : c2.pc = c.pc := by
  unfold instruction_lhu at h
  obtain ⟨a, ha, h⟩ := bind_ok h
  obtain ⟨rd, addr⟩ := a
  obtain ⟨bs, hb, h⟩ := bind_ok h
  cases h
  rfl

/-- Successful `sb` leaves pc unchanged. -/
theorem instruction_sb_pc {c c2 : CPU} {ins : LoadedInstruction}
    (h : instruction_sb c ins = .ok c2) : c2.pc = c.pc := by
  unfold instruction_sb at h
  obtain ⟨a, ha, h⟩ := bind_ok h
  obtain ⟨rd, addr⟩ := a
  obtain ⟨m2, hm, h⟩ := bind_ok h
  cases h
  rfl

/-- Successful `sh` leaves pc unchanged. -/
theorem instruction_sh_pc {c c2 : CPU} {ins : LoadedInstruction}
    (h : instruction_sh c ins = .ok c2) : c2.pc = c.pc := by
  unfold instruction_sh at h
  obtain ⟨a, ha, h⟩ := bind_ok h
  obtain ⟨rd, addr⟩ := a
  obtain ⟨m2, hm, h⟩ := bind_ok h
  cases h
  rfl

/-- Successful `sw` leaves pc unchanged. -/
theorem instruction_sw_pc {c c2 : CPU} {ins : LoadedInstruction}
    (h : instruction_sw c ins = .ok c2) : c2.pc = c.pc := by
  unfold instruction_sw at h
  obtain ⟨a, ha, h⟩ := bind_ok h
  obtain ⟨rd, addr⟩ := a
  obtain ⟨m2, hm, h⟩ := bind_ok h
  cases h
  rfl

/-- Successful `nop` leaves pc unchanged. -/
theorem instruction_nop_pc {c c2 : CPU} {ins : LoadedInstruction}
    (h : instruction_nop c ins = .ok c2) : c2.pc = c.pc := by
  unfold instruction_nop at h
  cases h
  rfl

/-- C8: dispatching any of the intentionally unimplemented mnemonics `lui`,
`auipc`, `xori`, `ori`, `andi`, `slti`, `sltiu` raises the distinct
unimplemented-instruction fault, a member of the catchable fault family,
and never returns a successor state (no silent no-op, no silent zero
write). -/
theorem unimplemented_mnemonics_raise_catchable_fault
    (sys : Int → CPU → Except EmuErr CPU) (dbg : CPU → CPU)
    (c : CPU) (ins : LoadedInstruction)
    (h : ins.name = "lui" ∨ ins.name = "auipc" ∨ ins.name = "xori" ∨ ins.name = "ori" ∨
      ins.name = "andi" ∨ ins.name = "slti" ∨ ins.name = "sltiu") :
    run_instruction sys dbg c ins = .error (.insNotImplemented ins.name)
    ∧ isRiscemuBaseException (.insNotImplemented ins.name) = true
    ∧ ∀ c2, run_instruction sys dbg c ins ≠ .ok c2 := by
  have hrun : run_instruction sys dbg c ins = .error (.insNotImplemented ins.name) := by
    unfold run_instruction
    rcases h with h|h|h|h|h|h|h
    · rw [show List.lookup ins.name (instruction_table sys dbg) = some instruction_lui by
        rw [h]; rfl]
      rfl
    · rw [show List.lookup ins.name (instruction_table sys dbg) = some instruction_auipc by
        rw [h]; rfl]
      rfl
    · rw [show List.lookup ins.name (instruction_table sys dbg) = some instruction_xori by
        rw [h]; rfl]
      rfl
    · rw [show List.lookup ins.name (instruction_table sys dbg) = some instruction_ori by
        rw [h]; rfl]
      rfl
    · rw [show List.lookup ins.name (instruction_table sys dbg) = some instruction_andi by
        rw [h]; rfl]
      rfl
    · rw [show List.lookup ins.name (instruction_table sys dbg) = some instruction_slti by
        rw [h]; rfl]
      rfl
    · rw [show List.lookup ins.name (instruction_table sys dbg) = some instruction_sltiu by
        rw [h]; rfl]
      rfl
  exact ⟨hrun, rfl, fun c2 hko => by rw [hrun] at hko; exact Except.noConfusion hko⟩

/-- Witness for C8 at the mnemonic `lui` on the concrete machine `cpu0`. -/
theorem unimplemented_mnemonics_raise_catchable_fault_witness :
    run_instruction sysNone dbgNone cpu0 { name := "lui", args := [] } =
      .error (.insNotImplemented "lui")
    ∧ isRiscemuBaseException (.insNotImplemented "lui") = true :=
  ⟨(unimplemented_mnemonics_raise_catchable_fault sysNone dbgNone cpu0
      { name := "lui", args := [] } (Or.inl rfl)).1,
   (unimplemented_mnemonics_raise_catchable_fault sysNone dbgNone cpu0
      { name := "lui", args := [] } (Or.inl rfl)).2.1⟩

/-- C9: a mnemonic with no registered handler makes dispatch raise a
host-level `RuntimeError`, which is not a member of the catchable fault
family, and the dispatch loop propagates it as a crash instead of catching
and reporting it as a normal fault. -/
theorem unknown_mnemonic_propagates
    (sys : Int → CPU → Except EmuErr CPU) (dbg : CPU → CPU)
    (c : CPU) (ins : LoadedInstruction)
    (h : List.lookup ins.name (instruction_table sys dbg) = none) :
    run_instruction sys dbg c ins =
      .error (.runtimeError ("Unknown instruction: " ++ ins.name))
    ∧ isRiscemuBaseException (.runtimeError ("Unknown instruction: " ++ ins.name)) = false
    ∧ (∀ fuel last, c.exit = false → c.mmu.read_ins c.pc = .ok ins →
        run sys dbg (fuel + 1) last c =
          .crashed (.runtimeError ("Unknown instruction: " ++ ins.name))
            { c with cycle := c.cycle + 1, pc := c.pc + 1 }) := by
  have hrun : ∀ cx : CPU, run_instruction sys dbg cx ins =
      .error (.runtimeError ("Unknown instruction: " ++ ins.name)) := by
    intro cx
    unfold run_instruction
    rw [h]
  refine ⟨hrun c, rfl, ?_⟩
  intro fuel last hex hfetch
  simp only [run, hex, Bool.false_eq_true, if_false, hfetch, hrun, isRiscemuBaseException]

/-- Witness for C9: the concrete machine `cpuU` fetches the unregistered
mnemonic "mul" and the run crashes past the loop boundary. -/
theorem unknown_mnemonic_propagates_witness :
    run sysNone dbgNone 1 none cpuU =
      .crashed (.runtimeError ("Unknown instruction: " ++ "mul"))
        { cpuU with cycle := cpuU.cycle + 1, pc := cpuU.pc + 1 } :=
  (unknown_mnemonic_propagates sysNone dbgNone cpuU { name := "mul", args := [] }
    rfl).2.2 0 none rfl rfl

/-- Mnemonics of the arithmetic/logic/shift/comparison instructions, the
loads and stores, and `nop`. -/
def c10_mnemonics : List String :=
  ["add", "addi", "sub", "and", "or", "xor", "sll", "slli", "srl", "srli", "sra", "srai", "slt", "sltu", "lb", "lh", "lw", "lbu", "lhu", "sb", "sh", "sw", "nop"]

/-- C10: a successful execution of any arithmetic/logic/shift/comparison
instruction, load, store, or `nop` leaves the program counter exactly as it
was after the fetch advance. -/
theorem alu_mem_nop_preserve_pc
    (sys : Int → CPU → Except EmuErr CPU) (dbg : CPU → CPU)
    (c : CPU) (ins : LoadedInstruction) (c2 : CPU)
    (hname : ins.name ∈ c10_mnemonics)
    (hrun : run_instruction sys dbg c ins = .ok c2) : c2.pc = c.pc := by
  unfold run_instruction at hrun
  simp only [c10_mnemonics, List.mem_cons, List.not_mem_nil, or_false] at hname
  rcases hname with h|h|h|h|h|h|h|h|h|h|h|h|h|h|h|h|h|h|h|h|h|h|h
  · rw [h] at hrun
    exact instruction_add_pc hrun
  · rw [h] at hrun
    exact instruction_addi_pc hrun
  · rw [h] at hrun
    exact instruction_sub_pc hrun
  · rw [h] at hrun
    exact instruction_and_pc hrun
  · rw [h] at hrun
    exact instruction_or_pc hrun
  · rw [h] at hrun
    exact instruction_xor_pc hrun
  · rw [h] at hrun
    exact instruction_sll_pc hrun
  · rw [h] at hrun
    exact instruction_slli_pc hrun
  · rw [h] at hrun
    exact instruction_srl_pc hrun
  · rw [h] at hrun
    exact instruction_srli_pc hrun
  · rw [h] at hrun
    exact instruction_sra_pc hrun
  · rw [h] at hrun
    exact instruction_srai_pc hrun
  · rw [h] at hrun
    exact instruction_slt_pc hrun
  · rw [h] at hrun
    exact instruction_sltu_pc hrun
  · rw [h] at hrun
    exact instruction_lb_pc hrun
  · rw [h] at hrun
    exact instruction_lh_pc hrun
  · rw [h] at hrun
    exact instruction_lw_pc hrun
  · rw [h] at hrun
    exact instruction_lbu_pc hrun
  · rw [h] at hrun
    exact instruction_lhu_pc hrun
  · rw [h] at hrun
    exact instruction_sb_pc hrun
  · rw [h] at hrun
    exact instruction_sh_pc hrun
  · rw [h] at hrun
    exact instruction_sw_pc hrun
  · rw [h] at hrun
    exact instruction_nop_pc hrun

/-- Witness for C10: `nop` on the concrete machine `cpu0`. -/
theorem alu_mem_nop_preserve_pc_witness :
    run_instruction sysNone dbgNone cpu0 { name := "nop", args := [] } = .ok cpu0
    ∧ cpu0.pc = cpu0.pc :=
  ⟨rfl, alu_mem_nop_preserve_pc sysNone dbgNone cpu0 { name := "nop", args := [] } cpu0
    (by simp [c10_mnemonics]) rfl⟩
